import Mathlib

/-
  Verification of the ziflex/throttle rate limiter.

  The embedding models time.Time and time.Duration as Int (nanoseconds),
  with 0 standing for the zero time.Time value (the code only tests the
  window field against the zero value via IsZero). uint64 fields are Nat
  with reductions modulo 2 ^ 64 exactly where Go arithmetic can wrap.
  The Clock interface from the source (Now / Sleep) is a structure of
  state-transition functions over an abstract clock-state type; the clock
  field of the Go Throttler struct is passed to the operations explicitly.
  Every advance call additionally returns the list of clock operations it
  performed, in order, mirroring the Go calls clock.Now() and clock.Sleep().
-/

namespace Throttle

/-- Modulus of Go uint64 arithmetic. -/
def UINT64_MOD : Nat := 2 ^ 64

/-- windowSize = time.Second, in nanoseconds. -/
def windowSize : Int := 1000000000

/-- Embedding of the Clock interface: Now returns the current instant and
the successor clock state; Sleep suspends for a duration, transforming the
clock state. -/
structure Clock (σ : Type) where
  Now : σ → Int × σ
  Sleep : Int → σ → σ

/-- Log entry for one call the throttler makes into its clock. -/
inductive ClockOp where
  | now : Int → ClockOp
  | sleep : Int → ClockOp
deriving DecidableEq, Repr

/-- State of the Throttler struct: window (0 encodes the unset zero time),
counter and limit (both uint64). The mutex is represented by the fact that
the embedding runs admissions sequentially, and the clock field is passed
to each operation explicitly. -/
structure Throttler where
  window : Int
  counter : Nat
  limit : Nat
deriving DecidableEq, Repr

/-- New creates a throttler with the given limit, an unset window and a
zero counter. -/
def New (limit : Nat) : Throttler :=
  { window := 0, counter := 0, limit := limit }

/-- Embedding of advance from throttle.go: updates the throttler state,
advancing the window or incrementing the counter as necessary. Returns the
new state, the new clock state, and the trace of clock calls made. -/
def Throttler.advance {σ : Type} (t : Throttler) (c : Clock σ) (s : σ) :
    Throttler × σ × List ClockOp :=
  if t.limit = 0 then
    (t, s, [])
  else
    let ns := c.Now s
    let now := ns.1
    let s1 := ns.2
    let window := if t.window = 0 then now else t.window
    let windowDur := now - window
    if windowDur > windowSize then
      ({ t with window := now, counter := 1 }, s1, [ClockOp.now now])
    else
      let nextCount := (t.counter + 1) % UINT64_MOD
      if nextCount ≤ t.limit then
        ({ t with window := window, counter := nextCount }, s1, [ClockOp.now now])
      else
        let sleepDur := windowSize - windowDur
        let s2 := c.Sleep sleepDur s1
        let ns2 := c.Now s2
        ({ t with window := ns2.1, counter := 1 }, ns2.2,
          [ClockOp.now now, ClockOp.sleep sleepDur, ClockOp.now ns2.1])

/-- Acquire blocks until the operation can run within the rate limit; the
mutex serializes callers, so one call is one advance step. -/
def Throttler.Acquire {σ : Type} (t : Throttler) (c : Clock σ) (s : σ) :
    Throttler × σ × List ClockOp :=
  t.advance c s

/-- Run n sequential Acquire calls, accumulating the clock-call trace. -/
def acquireN {σ : Type} (c : Clock σ) : Nat → Throttler → σ → Throttler × σ × List ClockOp
  | 0, t, s => (t, s, [])
  | n + 1, t, s =>
    let r := t.Acquire c s
    let r2 := acquireN c n r.1 r.2.1
    (r2.1, r2.2.1, r.2.2 ++ r2.2.2)

/-- True when the trace contains a Sleep call. -/
def hasSleep (tr : List ClockOp) : Bool :=
  tr.any fun op =>
    match op with
    | ClockOp.sleep _ => true
    | _ => false

/-- Value returned by the last Now call of a trace, when any. -/
def lastNowRead : List ClockOp → Option Int
  | [] => none
  | ClockOp.now r :: rest =>
    match lastNowRead rest with
    | none => some r
    | some x => some x
  | ClockOp.sleep _ :: rest => lastNowRead rest

/-- The deterministic test double from the test suite: Now returns the
held instant unchanged, Sleep advances the held instant by the duration. -/
def mockClock : Clock Int :=
  { Now := fun s => (s, s), Sleep := fun d s => s + d }

/-- Run n Acquire calls against the mock clock from a simultaneous burst
(no time passes except inside Sleep), returning each completion instant. -/
def burstTimes : Nat → Throttler → Int → List Int × Throttler × Int
  | 0, t, s => ([], t, s)
  | n + 1, t, s =>
    let r := t.Acquire mockClock s
    let rest := burstTimes n r.1 r.2.1
    (r.2.1 :: rest.1, rest.2.1, rest.2.2)

/-- Embedding of the generic convenience wrapper Do: performs admission,
invokes fn and returns its value-and-error pair together with the state
after admission. -/
def Throttler.Do {σ T E : Type} (t : Throttler) (c : Clock σ) (s : σ)
    (fn : Unit → T × Option E) : (T × Option E) × Throttler × σ :=
  let r := t.Acquire c s
  (fn (), r.1, r.2.1)

/-- Embedding of throttledRoundTripper from transport.go. -/
structure ThrottledRoundTripper (Req Resp F : Type) where
  transport : Req → Except F Resp
  throttler : Throttler

/-- RoundTrip acquires a slot and then delegates to the wrapped transport,
returning its response-or-error unchanged. -/
def ThrottledRoundTripper.RoundTrip {Req Resp F σ : Type}
    (rt : ThrottledRoundTripper Req Resp F) (c : Clock σ) (s : σ) (request : Req) :
    Except F Resp × Throttler × σ :=
  let r := rt.throttler.Acquire c s
  (rt.transport request, r.1, r.2.1)

/-- One step of a deterministic replay schedule: either a caller invokes
Acquire, or the test driver advances the substitute clock. -/
inductive Step where
  | acquire : Step
  | advanceClock : Int → Step
deriving DecidableEq, Repr

/-- Observable outcome of one Acquire call: admitted immediately, or
waited for the given duration. -/
inductive Outcome where
  | immediate : Outcome
  | waited : Int → Outcome
deriving DecidableEq, Repr

/-- Outcome of one Acquire call, read off its clock-call trace. -/
def outcomeOfTrace (tr : List ClockOp) : Outcome :=
  match tr.filterMap (fun op =>
    match op with
    | ClockOp.sleep d => some d
    | _ => none) with
  | [] => Outcome.immediate
  | d :: _ => Outcome.waited d

/-- Run a schedule of Acquire calls and explicit clock advances against the
deterministic substitute clock, collecting per-call outcomes. -/
def runSchedule : List Step → Throttler → Int → List Outcome × Throttler × Int
  | [], t, s => ([], t, s)
  | Step.acquire :: rest, t, s =>
    let r := t.Acquire mockClock s
    let rr := runSchedule rest r.1 r.2.1
    (outcomeOfTrace r.2.2 :: rr.1, rr.2)
  | Step.advanceClock d :: rest, t, s => runSchedule rest t (s + d)

end Throttle

namespace Legacy

/-- Options of the legacy clock-offset variant: buildOptions leaves the
clockOffset provider unset (nil) unless an offset option is given. -/
structure Options where
  clockOffset : Option (Int → Int)

/-- buildOptions from the legacy options file: starts from a zero value
(clockOffset nil) and applies the setters in order. -/
def buildOptions (setters : List (Options → Options)) : Options :=
  setters.foldl (fun o f => f o) { clockOffset := none }

/-- WithStaticClockOffset sets a constant offset provider. -/
def WithStaticClockOffset (offset : Int) : Options → Options :=
  fun o => { o with clockOffset := some (fun _ => offset) }

/-- WithDynamicClockOffset sets the given offset provider. -/
def WithDynamicClockOffset (provider : Int → Int) : Options → Options :=
  fun o => { o with clockOffset := some provider }

/-- State of the legacy generic Throttler: window, the possibly-nil
clockOffset function, counter and limit. -/
structure Throttler where
  window : Int
  clockOffset : Option (Int → Int)
  counter : Nat
  limit : Nat

/-- New of the legacy variant: copies the limit and whatever clockOffset
buildOptions produced, leaving window unset and counter zero. -/
def New (limit : Nat) (setters : List (Options → Options)) : Throttler :=
  { window := 0, clockOffset := (buildOptions setters).clockOffset,
    counter := 0, limit := limit }

/-- Embedding of the legacy advance, which reads time.Now() directly; the
two possible reads are supplied as now and nowAfterSleep. The saturated
branch calls the clockOffset function: when it is nil the call faults,
modelled as none. On success the performed sleep durations are returned. -/
def Throttler.advance (t : Throttler) (now nowAfterSleep : Int) :
    Option (Throttler × List Int) :=
  if t.limit = 0 then
    some (t, [])
  else
    let window := if t.window = 0 then now else t.window
    let windowDur := now - window
    if windowDur > Throttle.windowSize then
      some ({ t with window := now, counter := 1 }, [])
    else
      let nextCount := (t.counter + 1) % Throttle.UINT64_MOD
      if nextCount ≤ t.limit then
        some ({ t with window := window, counter := nextCount }, [])
      else
        let sleepDur := Throttle.windowSize - windowDur
        match t.clockOffset with
        | none => none
        | some off =>
          some ({ t with window := nowAfterSleep, counter := 1 },
            [sleepDur + off sleepDur])

/-- Legacy Do: performs admission, then invokes fn and returns its pair;
when admission faults, Do faults. -/
def Throttler.Do {T E : Type} (t : Throttler) (now nowAfterSleep : Int)
    (fn : Unit → T × Option E) : Option ((T × Option E) × Throttler) :=
  match t.advance now nowAfterSleep with
  | none => none
  | some r => some (fn (), r.1)

end Legacy

namespace Throttle

/-- Helper: advance with limit zero is a no-op performing no clock calls. -/
theorem advance_limit_zero {σ : Type} (c : Clock σ) (t : Throttler) (s : σ)
    (h : t.limit = 0) : t.advance c s = (t, s, []) := by
  simp [Throttler.advance, h]

/-- Helper: acquireN with limit zero changes nothing and logs nothing. -/
theorem acquireN_limit_zero {σ : Type} (c : Clock σ) (n : Nat) (t : Throttler) (s : σ)
    (h : t.limit = 0) : acquireN c n t s = (t, s, []) := by
  induction n with
  | zero => rfl
  | succ n ih =>
    simp [acquireN, Throttler.Acquire, advance_limit_zero c t s h, ih]

/-- C3: for a throttler constructed with limit zero, any number of Acquire
calls performs no Sleep on the clock. -/
theorem acquire_limit_zero_no_sleep {σ : Type} (c : Clock σ) (s : σ) (n : Nat) :
    hasSleep (acquireN c n (New 0) s).2.2 = false := by
  rw [acquireN_limit_zero c n (New 0) s rfl]
  rfl

/-- C10: for a throttler constructed with limit zero, any number of Acquire
calls leaves the throttler state and the clock state unchanged and performs
no clock calls at all (neither Now nor Sleep). -/
theorem acquire_limit_zero_frame {σ : Type} (c : Clock σ) (s : σ) (n : Nat) :
    acquireN c n (New 0) s = (New 0, s, []) :=
  acquireN_limit_zero c n (New 0) s rfl

/-- C7: the convenience wrapper Do and the transport adapter RoundTrip
perform admission and return the wrapped operation result-or-error pair
unchanged, adding no error of their own. -/
theorem do_roundtrip_propagate {σ T E Req Resp F : Type} (t : Throttler)
    (c : Clock σ) (s : σ) (fn : Unit → T × Option E)
    (rt : ThrottledRoundTripper Req Resp F) (request : Req) :
    (t.Do c s fn).1 = fn () ∧
    (rt.RoundTrip c s request).1 = rt.transport request :=
  ⟨rfl, rfl⟩

end Throttle

namespace Throttle

/-- C4: when the limit is positive, the window is open and not expired, and
one more admission fits the limit, Acquire commits counter + 1, changes
neither the window nor the clock state beyond the Now read, and performs no
Sleep. The bound on limit is the uint64 range of the Go field. -/
theorem acquire_under_limit_commits {σ : Type} (c : Clock σ) (t : Throttler) (s : σ)
    (n1 : Int) (s1 : σ)
    (hNow : c.Now s = (n1, s1)) (hlim : 0 < t.limit) (hwin : t.window ≠ 0)
    (hfresh : n1 - t.window ≤ windowSize) (hroom : t.counter + 1 ≤ t.limit)
    (h64 : t.limit < UINT64_MOD) :
    t.Acquire c s = ({ t with counter := t.counter + 1 }, s1, [ClockOp.now n1]) := by
  have hlz : ¬ t.limit = 0 := Nat.pos_iff_ne_zero.mp hlim
  have hmod : (t.counter + 1) % UINT64_MOD = t.counter + 1 :=
    Nat.mod_eq_of_lt (lt_of_le_of_lt hroom h64)
  simp [Throttler.Acquire, Throttler.advance, hlz, hNow, hwin,
    not_lt.mpr hfresh, hmod, hroom]

/-- C4 witness: limit 3, counter 1, open window at 5, clock at 7. -/
theorem acquire_under_limit_commits_witness :
    (Throttler.mk 5 1 3).Acquire mockClock 7 =
      (Throttler.mk 5 2 3, 7, [ClockOp.now 7]) :=
  acquire_under_limit_commits mockClock (Throttler.mk 5 1 3) 7 7 7 rfl
    (by decide) (by decide) (by decide) (by decide) (by decide)

/-- C2: boundary policy. With an open window, a call whose elapsed time
equals windowSize exactly is charged to the current window: under the limit
it increments the counter in place, and when saturated it waits rather than
resetting; only elapsed strictly greater than windowSize starts a fresh
window with counter 1 immediately and without sleeping. -/
theorem acquire_boundary_policy {σ : Type} (c : Clock σ) (t : Throttler) (s : σ)
    (n1 : Int) (s1 : σ)
    (hNow : c.Now s = (n1, s1)) (hlim : 0 < t.limit) (hwin : t.window ≠ 0) :
    (n1 - t.window = windowSize → t.counter + 1 ≤ t.limit → t.limit < UINT64_MOD →
      t.Acquire c s = ({ t with counter := t.counter + 1 }, s1, [ClockOp.now n1])) ∧
    (n1 - t.window = windowSize → t.limit < t.counter + 1 → t.counter + 1 < UINT64_MOD →
      hasSleep (t.Acquire c s).2.2 = true) ∧
    (windowSize < n1 - t.window →
      t.Acquire c s = ({ t with window := n1, counter := 1 }, s1, [ClockOp.now n1])) := by
  have hlz : ¬ t.limit = 0 := Nat.pos_iff_ne_zero.mp hlim
  refine ⟨?_, ?_, ?_⟩
  · intro hb hroom h64
    exact acquire_under_limit_commits c t s n1 s1 hNow hlim hwin (le_of_eq hb) hroom h64
  · intro hb hsat h64
    have hmod : (t.counter + 1) % UINT64_MOD = t.counter + 1 := Nat.mod_eq_of_lt h64
    have hnle : ¬ (t.counter + 1 ≤ t.limit) := not_le.mpr hsat
    have hnexp : ¬ (n1 - t.window > windowSize) := not_lt.mpr (le_of_eq hb)
    simp [Throttler.Acquire, Throttler.advance, hlz, hNow, hwin, hnexp, hmod, hnle, hasSleep]
  · intro hexp
    simp [Throttler.Acquire, Throttler.advance, hlz, hNow, hwin, hexp]

/-- C2 witness: limit 2, empty counter, window opened at 5, call exactly at
the boundary instant 5 + windowSize; the call lands in the current window. -/
theorem acquire_boundary_policy_witness :
    (Throttler.mk 5 0 2).Acquire mockClock (5 + windowSize) =
      (Throttler.mk 5 1 2, 5 + windowSize, [ClockOp.now (5 + windowSize)]) :=
  (acquire_boundary_policy mockClock (Throttler.mk 5 0 2) (5 + windowSize)
      (5 + windowSize) (5 + windowSize) rfl (by decide) (by decide)).1
    (by decide) (by decide) (by decide)

end Throttle

namespace Throttle

/-- C5 counterexample: with counter = limit = 2 ^ 64 - 1 (both uint64
fields at their maximum), the window open at 1 and not expired, the claim
premise counter + 1 > limit holds, yet Acquire performs no Sleep: the Go
increment counter + 1 wraps to 0, which passes the limit check, so the
call is admitted with counter 0 instead of blocking. -/
theorem acquire_saturated_wrap_cex :
    0 < (Throttler.mk 1 (UINT64_MOD - 1) (UINT64_MOD - 1)).limit ∧
    (Throttler.mk 1 (UINT64_MOD - 1) (UINT64_MOD - 1)).window ≠ 0 ∧
    (1 : Int) - (Throttler.mk 1 (UINT64_MOD - 1) (UINT64_MOD - 1)).window ≤ windowSize ∧
    (Throttler.mk 1 (UINT64_MOD - 1) (UINT64_MOD - 1)).limit <
      (Throttler.mk 1 (UINT64_MOD - 1) (UINT64_MOD - 1)).counter + 1 ∧
    hasSleep ((Throttler.mk 1 (UINT64_MOD - 1) (UINT64_MOD - 1)).Acquire mockClock 1).2.2
      = false ∧
    ((Throttler.mk 1 (UINT64_MOD - 1) (UINT64_MOD - 1)).Acquire mockClock 1).1.counter
      = 0 := by
  decide

/-- C5 (amended with the no-wraparound bound counter + 1 < 2 ^ 64): with a
positive limit, an open unexpired window and a saturated counter, Acquire
sleeps exactly windowSize minus elapsed, then sets the window start to the
Now read taken after waking and the counter to exactly 1; the legacy
clock-offset variant sleeps that duration plus the configured offset. -/
theorem acquire_saturated_waits {σ : Type} (c : Clock σ) (t : Throttler) (s : σ)
    (n1 n2 : Int) (s1 s2 s3 : σ)
    (hNow : c.Now s = (n1, s1))
    (hSleep : c.Sleep (windowSize - (n1 - t.window)) s1 = s2)
    (hNow2 : c.Now s2 = (n2, s3))
    (hlim : 0 < t.limit) (hwin : t.window ≠ 0)
    (hfresh : n1 - t.window ≤ windowSize)
    (hsat : t.limit < t.counter + 1) (h64 : t.counter + 1 < UINT64_MOD) :
    (t.Acquire c s =
      ({ t with window := n2, counter := 1 }, s3,
        [ClockOp.now n1, ClockOp.sleep (windowSize - (n1 - t.window)), ClockOp.now n2])) ∧
    (∀ (u : Legacy.Throttler) (off : Int → Int) (m1 m2 : Int),
      u.clockOffset = some off → 0 < u.limit → u.window ≠ 0 →
      m1 - u.window ≤ windowSize → u.limit < u.counter + 1 →
      u.counter + 1 < UINT64_MOD →
      u.advance m1 m2 =
        some ({ u with window := m2, counter := 1 },
          [windowSize - (m1 - u.window) + off (windowSize - (m1 - u.window))])) := by
  constructor
  · have hlz : ¬ t.limit = 0 := Nat.pos_iff_ne_zero.mp hlim
    have hmod : (t.counter + 1) % UINT64_MOD = t.counter + 1 := Nat.mod_eq_of_lt h64
    have hnle : ¬ (t.counter + 1 ≤ t.limit) := not_le.mpr hsat
    have hnexp : ¬ (n1 - t.window > windowSize) := not_lt.mpr hfresh
    simp [Throttler.Acquire, Throttler.advance, hlz, hNow, hwin, hnexp, hmod, hnle,
      hSleep, hNow2]
  · intro u off m1 m2 hoff hulim huwin hufresh husat hu64
    have hlz : ¬ u.limit = 0 := Nat.pos_iff_ne_zero.mp hulim
    have hmod : (u.counter + 1) % UINT64_MOD = u.counter + 1 := Nat.mod_eq_of_lt hu64
    have hnle : ¬ (u.counter + 1 ≤ u.limit) := not_le.mpr husat
    have hnexp : ¬ (m1 - u.window > windowSize) := not_lt.mpr hufresh
    simp [Legacy.Throttler.advance, hlz, huwin, hnexp, hmod, hnle, hoff]

/-- C5 witness: limit 1, counter 1, window open at 5, clock at 5; Acquire
sleeps the full window and restarts at 5 + windowSize with counter 1. -/
theorem acquire_saturated_waits_witness :
    (Throttler.mk 5 1 1).Acquire mockClock 5 =
      (Throttler.mk (5 + (windowSize - (5 - 5))) 1 1, 5 + (windowSize - (5 - 5)),
        [ClockOp.now 5, ClockOp.sleep (windowSize - (5 - 5)),
          ClockOp.now (5 + (windowSize - (5 - 5)))]) :=
  (acquire_saturated_waits mockClock (Throttler.mk 5 1 1) 5 5
      (5 + (windowSize - (5 - 5))) 5 (5 + (windowSize - (5 - 5)))
      (5 + (windowSize - (5 - 5))) rfl rfl rfl
      (by decide) (by decide) (by decide) (by decide) (by decide)).1

/-- C6: construction leaves the window unset, and every Acquire step on a
throttler with positive limit reestablishes the invariant at its final
clock reading r: the window is unset, or the counter is at most the limit
and r minus the window start is at most windowSize. -/
theorem acquire_preserves_invariant {σ : Type} (c : Clock σ) (t : Throttler) (s : σ)
    (r : Int) (hlim : 0 < t.limit)
    (hr : lastNowRead (t.Acquire c s).2.2 = some r) :
    (New t.limit).window = 0 ∧
    ((t.Acquire c s).1.window = 0 ∨
      ((t.Acquire c s).1.counter ≤ (t.Acquire c s).1.limit ∧
        r - (t.Acquire c s).1.window ≤ windowSize)) := by
  refine ⟨rfl, ?_⟩
  have hlz : ¬ t.limit = 0 := Nat.pos_iff_ne_zero.mp hlim
  have hW : (0 : Int) ≤ windowSize := by norm_num [windowSize]
  rcases hNow : c.Now s with ⟨n1, s1⟩
  simp only [Throttler.Acquire, Throttler.advance, hNow, hlz, if_false] at hr ⊢
  set w : Int := if t.window = 0 then n1 else t.window with hwdef
  by_cases hexp : n1 - w > windowSize
  · simp only [if_pos hexp] at hr ⊢
    simp only [lastNowRead] at hr
    obtain rfl : n1 = r := by simpa using hr
    exact Or.inr ⟨hlim, by simpa using hW⟩
  · simp only [if_neg hexp] at hr ⊢
    by_cases hcnt : (t.counter + 1) % UINT64_MOD ≤ t.limit
    · simp only [if_pos hcnt] at hr ⊢
      simp only [lastNowRead] at hr
      obtain rfl : n1 = r := by simpa using hr
      exact Or.inr ⟨hcnt, not_lt.mp hexp⟩
    · simp only [if_neg hcnt] at hr ⊢
      rcases hNow2 : c.Now (c.Sleep (windowSize - (n1 - w)) s1) with ⟨n2, s4⟩
      simp only [hNow2] at hr ⊢
      simp only [lastNowRead] at hr
      obtain rfl : n2 = r := by simpa using hr
      exact Or.inr ⟨hlim, by simpa using hW⟩

/-- C6 witness: first Acquire on a fresh throttler with limit 1 at clock 7. -/
theorem acquire_preserves_invariant_witness :
    (New 1).window = 0 ∧
    (((Throttler.mk 0 0 1).Acquire mockClock 7).1.window = 0 ∨
      (((Throttler.mk 0 0 1).Acquire mockClock 7).1.counter ≤
          ((Throttler.mk 0 0 1).Acquire mockClock 7).1.limit ∧
        (7 : Int) - ((Throttler.mk 0 0 1).Acquire mockClock 7).1.window ≤ windowSize)) :=
  acquire_preserves_invariant mockClock (Throttler.mk 0 0 1) 7 7 (by decide) (by decide)

/-- C9: the legacy variant New without a clock-offset option leaves the
clockOffset provider nil, and a Do call whose admission reaches the
saturated branch then invokes the nil provider and faults. -/
theorem legacy_nil_offset_do_faults {T E : Type} (limit : Nat) (t : Legacy.Throttler)
    (now now2 : Int) (fn : Unit → T × Option E)
    (hnil : t.clockOffset = none) (hlim : 0 < t.limit) (hwin : t.window ≠ 0)
    (hfresh : now - t.window ≤ windowSize)
    (hsat : t.limit < (t.counter + 1) % UINT64_MOD) :
    (Legacy.New limit []).clockOffset = none ∧ t.Do now now2 fn = none := by
  refine ⟨rfl, ?_⟩
  have hlz : ¬ t.limit = 0 := Nat.pos_iff_ne_zero.mp hlim
  have hnle : ¬ ((t.counter + 1) % UINT64_MOD ≤ t.limit) := not_le.mpr hsat
  have hnexp : ¬ (now - t.window > windowSize) := not_lt.mpr hfresh
  simp [Legacy.Throttler.Do, Legacy.Throttler.advance, hlz, hwin, hnexp, hnle, hnil]

/-- C9 witness: limit 1 with a saturated open window at 5; Do faults. -/
theorem legacy_nil_offset_do_faults_witness :
    (Legacy.New 1 []).clockOffset = none ∧
    (Legacy.Throttler.mk 5 none 1 1).Do 5 6
      (fun _ => ((0 : Nat), (none : Option Nat))) = none :=
  legacy_nil_offset_do_faults 1 (Legacy.Throttler.mk 5 none 1 1) 5 6 _
    rfl (by decide) (by decide) (by decide) (by decide)

end Throttle

namespace Throttle

/-- C8: against the deterministic substitute clock, two runs of the same
schedule of Acquire calls and explicit clock advances from equal initial
clock states produce the same sequence of admitted-or-waited outcomes. -/
theorem run_schedule_deterministic (sched : List Step) (L : Nat) (s1 s2 : Int)
    (h : s1 = s2) :
    (runSchedule sched (New L) s1).1 = (runSchedule sched (New L) s2).1 := by
  rw [h]

/-- C8 witness: a concrete schedule replayed from the same clock state. -/
theorem run_schedule_deterministic_witness :
    (runSchedule [Step.acquire, Step.advanceClock 5, Step.acquire] (New 1) 0).1 =
    (runSchedule [Step.acquire, Step.advanceClock 5, Step.acquire] (New 1) 0).1 :=
  run_schedule_deterministic [Step.acquire, Step.advanceClock 5, Step.acquire] 1 0 0 rfl

/-- Helper: one Acquire against the mock clock from a state whose window
start coincides with the clock instant x either increments the counter or,
when saturated, sleeps one full window and restarts at x + windowSize. -/
theorem acquire_mock_step (x : Int) (j L : Nat) (hL : 0 < L) (hj64 : j + 1 < UINT64_MOD) :
    (Throttler.mk x j L).Acquire mockClock x =
      if j + 1 ≤ L then (Throttler.mk x (j + 1) L, x, [ClockOp.now x])
      else (Throttler.mk (x + windowSize) 1 L, x + windowSize,
        [ClockOp.now x, ClockOp.sleep windowSize, ClockOp.now (x + windowSize)]) := by
  have hlz : ¬ L = 0 := Nat.pos_iff_ne_zero.mp hL
  have hmod : (j + 1) % UINT64_MOD = j + 1 := Nat.mod_eq_of_lt hj64
  have hnexp : ¬ ((0 : Int) > windowSize) := by norm_num [windowSize]
  by_cases hc : j + 1 ≤ L
  · simp [Throttler.Acquire, Throttler.advance, mockClock, hlz, hmod, hc, hnexp, ite_self]
  · simp [Throttler.Acquire, Throttler.advance, mockClock, hlz, hmod, hc, hnexp, ite_self]

/-- Helper: the first Acquire on a fresh throttler with positive limit
opens the window at the clock instant and admits with counter 1. -/
theorem acquire_mock_first (L : Nat) (t0 : Int) (hL : 0 < L) :
    (New L).Acquire mockClock t0 = (Throttler.mk t0 1 L, t0, [ClockOp.now t0]) := by
  have hlz : ¬ L = 0 := Nat.pos_iff_ne_zero.mp hL
  have hmod : (0 + 1) % UINT64_MOD = 1 := by decide
  have hle : (0 + 1) % UINT64_MOD ≤ L := by rw [hmod]; exact hL
  have hnexp : ¬ ((0 : Int) > windowSize) := by norm_num [windowSize]
  simp [Throttler.Acquire, Throttler.advance, New, mockClock, hlz, hnexp, hmod, hle]

end Throttle

namespace Throttle

/-- Helper: closed form of the completion instants of a burst started from
a mid-window state with counter j in window number q. The i-th remaining
completion lands in window number (q * L + j + i) / L. -/
theorem burstTimes_closed (L : Nat) (t0 : Int) (hL : 0 < L) (h64 : L + 1 < UINT64_MOD) :
    ∀ (n q j : Nat), 1 ≤ j → j ≤ L →
      (burstTimes n ⟨t0 + (q : Int) * windowSize, j, L⟩ (t0 + (q : Int) * windowSize)).1 =
        (List.range n).map
          (fun i => t0 + (((q * L + j + i) / L : Nat) : Int) * windowSize) := by
  intro n
  induction n with
  | zero => intro q j hj1 hjL; simp [burstTimes]
  | succ n ih =>
    intro q j hj1 hjL
    have hj64 : j + 1 < UINT64_MOD := lt_of_le_of_lt (Nat.succ_le_succ hjL) h64
    simp only [burstTimes]
    rw [acquire_mock_step (t0 + (q : Int) * windowSize) j L hL hj64]
    by_cases hc : j + 1 ≤ L
    · rw [if_pos hc]
      dsimp only
      have hjlt : j < L := hc
      have htail := ih q (j + 1) (by omega) hc
      rw [List.range_succ_eq_map, List.map_cons, List.map_map]
      simp only [List.cons.injEq]
      constructor
      · show t0 + (q : Int) * windowSize
            = t0 + (((q * L + j + 0) / L : Nat) : Int) * windowSize
        have hd : (q * L + j + 0) / L = q := by
          rw [Nat.add_zero, Nat.add_comm, Nat.add_mul_div_right _ _ hL,
            Nat.div_eq_of_lt hjlt, Nat.zero_add]
        rw [hd]
      · rw [htail]
        have hfe : (fun i => t0 + (((q * L + (j + 1) + i) / L : Nat) : Int) * windowSize)
            = ((fun i => t0 + (((q * L + j + i) / L : Nat) : Int) * windowSize) ∘ Nat.succ) := by
          funext i
          show t0 + (((q * L + (j + 1) + i) / L : Nat) : Int) * windowSize
              = t0 + (((q * L + j + Nat.succ i) / L : Nat) : Int) * windowSize
          have he : q * L + (j + 1) + i = q * L + j + Nat.succ i := by omega
          rw [he]
        rw [hfe]
    · rw [if_neg hc]
      dsimp only
      have hjL2 : j = L := by omega
      subst hjL2
      have hj0 : 0 < j := hj1
      have hstate : t0 + (q : Int) * windowSize + windowSize
          = t0 + ((q + 1 : Nat) : Int) * windowSize := by
        push_cast
        ring
      rw [hstate]
      have htail := ih (q + 1) 1 le_rfl hj1
      rw [List.range_succ_eq_map, List.map_cons, List.map_map]
      simp only [List.cons.injEq]
      constructor
      · show t0 + ((q + 1 : Nat) : Int) * windowSize
            = t0 + (((q * j + j + 0) / j : Nat) : Int) * windowSize
        have hd : (q * j + j + 0) / j = q + 1 := by
          have hm : q * j + j + 0 = (q + 1) * j := by ring
          rw [hm, Nat.mul_div_cancel _ hj0]
        rw [hd]
      · rw [htail]
        have hfe : (fun i => t0 + ((((q + 1) * j + 1 + i) / j : Nat) : Int) * windowSize)
            = ((fun i => t0 + (((q * j + j + i) / j : Nat) : Int) * windowSize) ∘ Nat.succ) := by
          funext i
          show t0 + ((((q + 1) * j + 1 + i) / j : Nat) : Int) * windowSize
              = t0 + (((q * j + j + Nat.succ i) / j : Nat) : Int) * windowSize
          have hm : (q + 1) * j = q * j + j := by ring
          have he : (q + 1) * j + 1 + i = q * j + j + Nat.succ i := by omega
          rw [he]
        rw [hfe]

end Throttle

namespace Throttle

/-- Helper: completion instants of an n-call burst on a fresh throttler:
call i completes at t0 plus (i / L) windows. -/
theorem burstTimes_from_new (L : Nat) (t0 : Int) (hL : 0 < L)
    (h64 : L + 1 < UINT64_MOD) (n : Nat) :
    (burstTimes n (New L) t0).1 =
      (List.range n).map (fun i => t0 + ((i / L : Nat) : Int) * windowSize) := by
  cases n with
  | zero => simp [burstTimes]
  | succ n =>
    simp only [burstTimes]
    rw [acquire_mock_first L t0 hL]
    dsimp only
    have htail := burstTimes_closed L t0 hL h64 n 0 1 le_rfl hL
    have h0 : t0 + ((0 : Nat) : Int) * windowSize = t0 := by
      push_cast
      ring
    rw [h0] at htail
    rw [List.range_succ_eq_map, List.map_cons, List.map_map]
    simp only [List.cons.injEq]
    constructor
    · show t0 = t0 + ((0 / L : Nat) : Int) * windowSize
      rw [Nat.zero_div]
      push_cast
      ring
    · rw [htail]
      have hfe : (fun i => t0 + (((0 * L + 1 + i) / L : Nat) : Int) * windowSize)
          = ((fun i => t0 + ((i / L : Nat) : Int) * windowSize) ∘ Nat.succ) := by
        funext i
        show t0 + (((0 * L + 1 + i) / L : Nat) : Int) * windowSize
            = t0 + ((Nat.succ i / L : Nat) : Int) * windowSize
        have he : 0 * L + 1 + i = Nat.succ i := by omega
        rw [he]
      rw [hfe]

/-- Helper: among the first n naturals, at most L fall in any division
window k, because they all lie in the interval from k * L to k * L + L. -/
theorem countP_div_range_le (L k n : Nat) (hL : 0 < L) :
    ((List.range n).countP (fun i => decide (i / L = k))) ≤ L := by
  rw [List.countP_eq_length_filter]
  have hnd : ((List.range n).filter (fun i => decide (i / L = k))).Nodup :=
    (List.nodup_range n).filter _
  have hsub : ((List.range n).filter (fun i => decide (i / L = k))).toFinset
      ⊆ Finset.Ico (k * L) (k * L + L) := by
    intro x hx
    rw [List.mem_toFinset, List.mem_filter] at hx
    obtain ⟨hxr, hxp⟩ := hx
    have hdiv : x / L = k := of_decide_eq_true hxp
    rw [Finset.mem_Ico]
    constructor
    · calc k * L = x / L * L := by rw [hdiv]
        _ ≤ x := Nat.div_mul_le_self x L
    · have hlt : x / L < k + 1 := by omega
      have hx2 : x < (k + 1) * L := (Nat.div_lt_iff_lt_mul hL).mp hlt
      calc x < (k + 1) * L := hx2
        _ = k * L + L := by ring
  calc ((List.range n).filter (fun i => decide (i / L = k))).length
      = ((List.range n).filter (fun i => decide (i / L = k))).toFinset.card :=
        (List.toFinset_card_of_nodup hnd).symm
    _ ≤ (Finset.Ico (k * L) (k * L + L)).card := Finset.card_le_card hsub
    _ = k * L + L - k * L := Nat.card_Ico _ _
    _ = L := by omega

/-- C1: a burst of N calls on one throttler with limit L, issued
simultaneously against the deterministic clock (callers are serialized by
the mutex, which is held across the whole admission including the sleep):
every call completes exactly once, and for every window index k at most L
completion instants fall into window k. The bound on L is the uint64 range
of the limit field. -/
theorem acquire_burst_window_bound (L N : Nat) (t0 : Int) (hL : 0 < L)
    (h64 : L + 1 < UINT64_MOD) :
    ((burstTimes N (New L) t0).1).length = N ∧
    ∀ k : Nat,
      ((burstTimes N (New L) t0).1).countP
        (fun ts => decide ((ts - t0) / windowSize = (k : Int))) ≤ L := by
  rw [burstTimes_from_new L t0 hL h64 N]
  constructor
  · rw [List.length_map, List.length_range]
  · intro k
    rw [List.countP_map]
    have hW : (windowSize : Int) ≠ 0 := by norm_num [windowSize]
    have hfe : ((fun ts => decide ((ts - t0) / windowSize = (k : Int)))
          ∘ (fun i => t0 + ((i / L : Nat) : Int) * windowSize))
        = (fun i => decide (i / L = k)) := by
      funext i
      show decide ((t0 + ((i / L : Nat) : Int) * windowSize - t0) / windowSize = (k : Int))
          = decide (i / L = k)
      apply decide_eq_decide.mpr
      have h1 : t0 + ((i / L : Nat) : Int) * windowSize - t0
          = ((i / L : Nat) : Int) * windowSize := by ring
      rw [h1, Int.mul_ediv_cancel _ hW]
      exact Int.natCast_inj
    rw [hfe]
    exact countP_div_range_le L k N hL

/-- C1 witness: burst of 7 calls with limit 3 starting at instant 0. -/
theorem acquire_burst_window_bound_witness :
    ((burstTimes 7 (New 3) 0).1).length = 7 ∧
    ∀ k : Nat,
      ((burstTimes 7 (New 3) 0).1).countP
        (fun ts => decide ((ts - 0) / windowSize = (k : Int))) ≤ 3 :=
  acquire_burst_window_bound 3 7 0 (by decide) (by decide)

end Throttle

namespace Throttle

/-- Helper: with the limit at the uint64 maximum, the wrapped increment
(j + 1) mod 2 ^ 64 is always at most the limit, so one Acquire from a
state whose window start coincides with the clock instant always takes the
increment branch and never sleeps. -/
theorem acquire_mock_wrap_step (t0 : Int) (j : Nat) :
    (Throttler.mk t0 j (UINT64_MOD - 1)).Acquire mockClock t0 =
      (Throttler.mk t0 ((j + 1) % UINT64_MOD) (UINT64_MOD - 1), t0, [ClockOp.now t0]) := by
  have hlz : ¬ (UINT64_MOD - 1 = 0) := by decide
  have hnexp : ¬ ((0 : Int) > windowSize) := by norm_num [windowSize]
  have hM : 0 < UINT64_MOD := by decide
  have hle : (j + 1) % UINT64_MOD ≤ UINT64_MOD - 1 := by
    have := Nat.mod_lt (j + 1) hM
    omega
  simp [Throttler.Acquire, Throttler.advance, mockClock, hlz, hnexp, hle, ite_self]

/-- Helper: a burst at the wrap limit from an open window at the clock
instant completes every call at that same instant, sleeping never. -/
theorem burstTimes_wrap (t0 : Int) :
    ∀ (n j : Nat),
      (burstTimes n (Throttler.mk t0 j (UINT64_MOD - 1)) t0).1 = List.replicate n t0 := by
  intro n
  induction n with
  | zero => intro j; simp [burstTimes]
  | succ n ih =>
    intro j
    simp only [burstTimes]
    rw [acquire_mock_wrap_step t0 j]
    dsimp only
    rw [ih ((j + 1) % UINT64_MOD)]
    rfl

/-- Helper: a burst at the wrap limit on a fresh throttler completes every
call at the starting instant. -/
theorem burstTimes_wrap_new (t0 : Int) (n : Nat) :
    (burstTimes n (New (UINT64_MOD - 1)) t0).1 = List.replicate n t0 := by
  cases n with
  | zero => rfl
  | succ n =>
    simp only [burstTimes]
    rw [acquire_mock_first (UINT64_MOD - 1) t0 (by decide)]
    dsimp only
    rw [burstTimes_wrap t0 n 1]
    rfl

/-- Helper: counting a predicate that holds at the repeated element over a
replicated list yields the full length. -/
theorem countP_replicate_true {α : Type} (p : α → Bool) (a : α) (h : p a = true) :
    ∀ n, (List.replicate n a).countP p = n := by
  intro n
  induction n with
  | zero => rfl
  | succ n ih => simp [List.replicate_succ, List.countP_cons, h, ih]

/-- C1 counterexample: at the Go-representable limit L = 2 ^ 64 - 1 and a
burst of N = 2 ^ 64 calls from instant 0, the uint64 wrap of counter + 1
keeps every admission inside the limit check, no call ever sleeps, every
completion lands in window 0, and that window holds N > L completions, so
the unbounded per-window bound fails. -/
theorem acquire_burst_wrap_cex :
    0 < UINT64_MOD - 1 ∧
    ¬ (((burstTimes UINT64_MOD (New (UINT64_MOD - 1)) 0).1).length = UINT64_MOD ∧
      ∀ k : Nat,
        ((burstTimes UINT64_MOD (New (UINT64_MOD - 1)) 0).1).countP
          (fun ts => decide ((ts - 0) / windowSize = (k : Int))) ≤ UINT64_MOD - 1) := by
  constructor
  · decide
  · intro hcl
    have hc := hcl.2 0
    rw [burstTimes_wrap_new 0 UINT64_MOD] at hc
    have hp : (fun ts => decide ((ts - 0) / windowSize = ((0 : Nat) : Int))) (0 : Int)
        = true := by decide
    rw [countP_replicate_true (fun ts => decide ((ts - 0) / windowSize = ((0 : Nat) : Int)))
      0 hp UINT64_MOD] at hc
    have hM : 0 < UINT64_MOD := by decide
    omega

end Throttle
